import Mathlib

/-!
Verification of the rainfields_db storage/serialization layer.

This file gives a shallow embedding of the core of the repository:

* `rainfields_db/utils/nc_utils.py` — the raster codec
  (`write_netcdf_buffer` / `read_netcdf_buffer`) and the canonical
  filename builder (`make_nc_name`);
* `rainfields_db/io/gridfs_io.py` — the GridFS-backed blob store
  operations (`write_rainfield`, `get_rainfield`, `write_state`,
  `get_state`, `get_rainfields_df`, `get_states_df`, `make_metadata`);
* `rainfields_db/utils/db_utils.py` — the configuration write path
  (`write_config`).

Modelling conventions:

* Python floats are modelled as exact rationals `ℚ`; `NaN` is modelled by
  `Option ℚ` with `none` for NaN.  The int16 quantisation of the codec is
  modelled on `ℤ` with an explicit wrap `toInt16` (reduction modulo 2^16
  into [-32768, 32767]), matching `numpy.ndarray.astype(np.int16)`.
  `np.round` is round-half-to-even, modelled by `rint`.
* Python strings are modelled as `List Char`; `datetime.datetime` as a
  record of calendar fields plus a timezone-awareness flag (`PyDateTime`,
  aware values being UTC).  `strftime "%Y%m%dT%H%M%S"` is modelled with
  zero-padded fields; the theorems about it carry the calendar-validity
  bounds (4-digit year, two-digit remaining fields) under which this
  matches CPython output.
* Python dicts (metadata documents) are modelled as insertion-ordered
  association lists `Dict` over a value type `Val`; `dict.get`,
  item-assignment and `dict.update` are `dictGet`, `dictSet`,
  `dictUpdate` with Python's replace-in-place-or-append semantics.
* The MongoDB/GridFS bucket backing a store is external to the
  repository; it is modelled as an in-memory list of records in
  insertion order.  `find_one` is first-match lookup, `find(query)` is
  `List.filter`, and `sort("filename", ASCENDING)` is modelled by
  `List.insertionSort` on the filename; MongoDB's chronological
  comparison of BSON datetimes in range filters is modelled by
  comparison of `dtKey` (for timezone-normalised datetimes with valid
  calendar fields this coincides with chronological order).
* Fallible Python code is modelled with `Except String`; a `try/except`
  block that swallows an exception yields a total branch.  Calls to
  `logging` are modelled by returning the list of emitted log levels.
-/

/-! ### Rounding: `np.round` (round half to even) over exact rationals -/

/-- Round half to even, as `np.round` does, over `ℚ` (computable). -/
def rint (x : ℚ) : ℤ :=
  if x - ⌊x⌋ < 1/2 then ⌊x⌋
  else if 1/2 < x - ⌊x⌋ then ⌊x⌋ + 1
  else if ⌊x⌋ % 2 = 0 then ⌊x⌋ else ⌊x⌋ + 1

theorem rint_cases (x : ℚ) : rint x = ⌊x⌋ ∨ rint x = ⌊x⌋ + 1 := by
  unfold rint
  split
  · exact Or.inl rfl
  · split
    · exact Or.inr rfl
    · split
      · exact Or.inl rfl
      · exact Or.inr rfl

theorem abs_rint_sub_le (x : ℚ) : |(rint x : ℚ) - x| ≤ 1/2 := by
  have hfl : (⌊x⌋ : ℚ) ≤ x := Int.floor_le x
  have hfu : x < (⌊x⌋ : ℚ) + 1 := Int.lt_floor_add_one x
  unfold rint
  split
  · rename_i h
    rw [abs_le]; constructor <;> linarith
  · split
    · rename_i h h'
      rw [abs_le]; constructor <;> push_cast <;> linarith
    · rename_i h h'
      have hr : x - (⌊x⌋ : ℚ) = 1/2 := le_antisymm (not_lt.mp h') (not_lt.mp h)
      split
      · rw [abs_le]; constructor <;> push_cast <;> linarith
      · rw [abs_le]; constructor <;> push_cast <;> linarith

theorem rint_nonneg {x : ℚ} (hx : 0 ≤ x) : 0 ≤ rint x := by
  have h0 : 0 ≤ ⌊x⌋ := Int.floor_nonneg.mpr hx
  rcases rint_cases x with h | h <;> omega

theorem rint_le_of_le {x : ℚ} {B : ℤ} (hx : x ≤ (B : ℚ)) : rint x ≤ B := by
  have hfl : ⌊x⌋ ≤ B := by
    have := Int.floor_mono hx
    rwa [Int.floor_intCast] at this
  rcases lt_or_eq_of_le hfl with h | h
  · rcases rint_cases x with hc | hc <;> omega
  · -- ⌊x⌋ = B together with x ≤ B forces x = B, hence rint x = B
    have hxB : x = (B : ℚ) := by
      have : (B : ℚ) ≤ x := by rw [← h]; exact Int.floor_le x
      linarith
    subst hxB
    unfold rint
    rw [Int.floor_intCast, if_pos (by norm_num)]

theorem rint_ge_of_ge {x : ℚ} {B : ℤ} (hx : (B : ℚ) ≤ x) : B ≤ rint x := by
  have hfl : B ≤ ⌊x⌋ := Int.le_floor.mpr (by exact_mod_cast hx)
  rcases rint_cases x with h | h <;> omega

theorem rint_neg_of_lt_half {x : ℚ} (hx : x < -(1/2)) : rint x < 0 := by
  have hfu : x < (⌊x⌋ : ℚ) + 1 := Int.lt_floor_add_one x
  have hfl : (⌊x⌋ : ℚ) ≤ x := Int.floor_le x
  unfold rint
  split
  · rename_i h
    have : (⌊x⌋ : ℚ) < 0 := by linarith
    exact_mod_cast this
  · split
    · rename_i h h'
      -- x - ⌊x⌋ > 1/2 and x < -1/2 give ⌊x⌋ < -1
      have h2 : (⌊x⌋ : ℚ) + 1 < 0 := by linarith
      have : ((⌊x⌋ + 1 : ℤ) : ℚ) < 0 := by push_cast; linarith
      exact_mod_cast this
    · rename_i h h'
      have hr : x - (⌊x⌋ : ℚ) = 1/2 := le_antisymm (not_lt.mp h') (not_lt.mp h)
      have h2 : (⌊x⌋ : ℚ) + 1 < 0 := by linarith
      split
      · have h3 : (⌊x⌋ : ℚ) < 0 := by linarith
        exact_mod_cast h3
      · have : ((⌊x⌋ + 1 : ℤ) : ℚ) < 0 := by push_cast; linarith
        exact_mod_cast this

theorem rint_zero_of_small_neg {x : ℚ} (h1 : -(1/2) ≤ x) (h2 : x < 0) :
    rint x = 0 := by
  have hfl : ⌊x⌋ = -1 := by
    rw [Int.floor_eq_iff]
    constructor <;> (push_cast; linarith)
  unfold rint
  rw [hfl]
  rw [if_neg (by push_cast; linarith)]
  rcases lt_or_eq_of_le h1 with hlt | heq
  · rw [if_pos (by push_cast; linarith)]
    norm_num
  · rw [if_neg (by push_cast; linarith), if_neg (by decide)]
    norm_num

/-! ### The raster codec of `nc_utils.py`

`write_netcdf_buffer` quantises the grid: NaN is first replaced by
`fill_value / scale_factor = -10.0`, the grid is divided by the scale
factor, rounded (`np.round`, half to even) and cast to `int16`
(wrapping), and finally every cell whose pre-rounding value was exactly
`-10.0` (i.e. every NaN cell, plus any cell whose original value was
exactly -10.0) is overwritten with the fill value `-1`.

`read_netcdf_buffer` reads the variable back (the netCDF library applies
`value = raw * scale_factor + add_offset` and masks the fill value) and
then sets every remaining negative cell to NaN
(`rain_rate[rain_rate < 0] = np.nan`). -/

def scale_factor : ℚ := 1/10

def add_offset : ℚ := 0

def fill_value : ℤ := -1

/-- `numpy` `astype(np.int16)`: wrap an integer into [-32768, 32767]. -/
def toInt16 (n : ℤ) : ℤ := (n + 32768) % 65536 - 32768

theorem toInt16_eq_self {n : ℤ} (h1 : -32768 ≤ n) (h2 : n ≤ 32767) :
    toInt16 n = n := by
  unfold toInt16
  omega

/-- One cell of `write_netcdf_buffer`: `none` models a NaN cell. -/
def encodeCell (v : Option ℚ) : ℤ :=
  match v with
  | none => fill_value
  | some x =>
    if x = (fill_value : ℚ) / scale_factor then fill_value
    else toInt16 (rint (x / scale_factor))

/-- One cell of `read_netcdf_buffer`: the fill value is masked to NaN and
any negative unpacked value is set to NaN. -/
def decodeCell (q : ℤ) : Option ℚ :=
  if q = fill_value then none
  else if (q : ℚ) * scale_factor + add_offset < 0 then none
  else some ((q : ℚ) * scale_factor + add_offset)

def encodeGrid (g : List (List (Option ℚ))) : List (List ℤ) :=
  g.map (fun row => row.map encodeCell)

def decodeGrid (g : List (List ℤ)) : List (List (Option ℚ)) :=
  g.map (fun row => row.map decodeCell)

/-- Per-cell round-trip contract: NaN comes back exactly, a finite value
comes back within `scale_factor / 2`. -/
def cellApprox (orig dec : Option ℚ) : Prop :=
  match orig with
  | none => dec = none
  | some v => ∃ w, dec = some w ∧ |w - v| ≤ scale_factor / 2

theorem encodeCell_none : encodeCell none = fill_value := rfl

theorem decodeCell_fill : decodeCell fill_value = none := by
  unfold decodeCell
  rw [if_pos rfl]

theorem cell_roundtrip {v : ℚ} (h0 : 0 ≤ v) (h1 : v ≤ 32767 * scale_factor) :
    cellApprox (some v) (decodeCell (encodeCell (some v))) := by
  have hne : v ≠ (fill_value : ℚ) / scale_factor := by
    unfold fill_value scale_factor
    intro h
    rw [h] at h0
    norm_num at h0
  have hq0 : 0 ≤ rint (v / scale_factor) := by
    apply rint_nonneg
    unfold scale_factor
    positivity
  have hqB : rint (v / scale_factor) ≤ 32767 := by
    apply rint_le_of_le
    unfold scale_factor at h1 ⊢
    push_cast
    linarith
  have herr : |(rint (v / scale_factor) : ℚ) - v / scale_factor| ≤ 1/2 :=
    abs_rint_sub_le _
  simp only [encodeCell]
  rw [if_neg hne, toInt16_eq_self (by omega) hqB]
  unfold decodeCell
  rw [if_neg (by unfold fill_value; omega)]
  rw [if_neg]
  · refine ⟨_, rfl, ?_⟩
    unfold scale_factor at herr ⊢
    unfold add_offset
    rw [abs_le] at herr ⊢
    have hl := herr.1
    have hr := herr.2
    constructor
    · have : (rint (v / (1/10)) : ℚ) ≥ v / (1/10) - 1/2 := by linarith
      nlinarith
    · have : (rint (v / (1/10)) : ℚ) ≤ v / (1/10) + 1/2 := by linarith
      nlinarith
  · unfold scale_factor add_offset
    push_neg
    have : (0 : ℚ) ≤ (rint (v / (1/10)) : ℚ) := by exact_mod_cast hq0
    nlinarith

/-! ### Claims C1 and C10 -/

/-- **C1** — For every 2D raster whose finite cell values lie in the
codec's representable range `[0, 32767 * scale_factor]`, decoding the
encoded payload yields a grid of the same shape whose per-cell absolute
error is at most `scale_factor / 2` (= 0.05 for the default scale 0.1),
and every NaN cell of the input decodes to NaN exactly. -/
theorem C1_roundtrip (g : List (List (Option ℚ)))
    (hg : ∀ row ∈ g, ∀ c ∈ row, ∀ v, c = some v →
      0 ≤ v ∧ v ≤ 32767 * scale_factor) :
    List.Forall₂ (List.Forall₂ cellApprox) g (decodeGrid (encodeGrid g)) := by
  unfold decodeGrid encodeGrid
  rw [List.map_map, List.forall₂_map_right_iff, List.forall₂_same]
  intro row hrow
  simp only [Function.comp, List.map_map]
  rw [List.forall₂_map_right_iff, List.forall₂_same]
  intro c hc
  match c with
  | none =>
    show cellApprox none (decodeCell (encodeCell none))
    rw [encodeCell_none, decodeCell_fill]
    rfl
  | some v =>
    obtain ⟨h0, h1⟩ := hg row hrow (some v) hc v rfl
    exact cell_roundtrip h0 h1

/-- Witness for C1 at a concrete 2×2 raster containing a NaN cell. -/
theorem C1_roundtrip_witness :
    List.Forall₂ (List.Forall₂ cellApprox)
      [[some (23/10 : ℚ), none], [some 0, some (1/3)]]
      (decodeGrid (encodeGrid [[some (23/10 : ℚ), none], [some 0, some (1/3)]])) := by
  apply C1_roundtrip
  intro row hrow c hc v hv
  fin_cases hrow <;> fin_cases hc <;>
    simp only [Option.some.injEq, reduceCtorEq] at hv <;>
    subst hv <;> constructor <;> norm_num [scale_factor]

/-- **C10 counterexample** — the claim says every finite negative input
cell decodes to NaN; but `-0.01` quantises (half-to-even) to the stored
value `0`, which decodes to `0`, not NaN. -/
theorem C10_counterexample :
    decodeCell (encodeCell (some (-1/100 : ℚ))) = some 0 ∧
      decodeCell (encodeCell (some (-1/100 : ℚ))) ≠ none ∧
      (-1/100 : ℚ) < 0 := by
  have h : decodeCell (encodeCell (some (-1/100 : ℚ))) = some 0 := by
    have hq : rint ((-1/100 : ℚ) / scale_factor) = 0 :=
      rint_zero_of_small_neg (by norm_num [scale_factor]) (by norm_num [scale_factor])
    simp only [encodeCell]
    rw [if_neg (by norm_num [fill_value, scale_factor]), hq]
    norm_num [decodeCell, toInt16, fill_value, scale_factor, add_offset]
  exact ⟨h, by rw [h]; exact Option.some_ne_none 0, by norm_num⟩

/-- **C10 (amended)** — The decoded raster contains no negative values:
decode maps every negative stored value to NaN; every finite input below
`-scale_factor/2` that does not wrap out of int16 range decodes to NaN;
but finite negative inputs in `[-scale_factor/2, 0)` quantise to `0` and
decode to `0` rather than NaN. -/
theorem C10_amended :
    (∀ q : ℤ, ∀ w : ℚ, decodeCell q = some w → 0 ≤ w) ∧
    (∀ q : ℤ, q < 0 → decodeCell q = none) ∧
    (∀ v : ℚ, -32768 * scale_factor ≤ v → v < -(scale_factor / 2) →
      decodeCell (encodeCell (some v)) = none) ∧
    (∀ v : ℚ, -(scale_factor / 2) ≤ v → v < 0 →
      decodeCell (encodeCell (some v)) = some 0) := by
  refine ⟨?_, ?_, ?_, ?_⟩
  · intro q w h
    unfold decodeCell at h
    split at h
    · exact absurd h (by simp)
    · split at h
      · exact absurd h (by simp)
      · rename_i h1 h2
        rw [Option.some_inj] at h
        push_neg at h2
        linarith [h, h2]
  · intro q hq
    unfold decodeCell
    rcases eq_or_ne q fill_value with h | h
    · rw [if_pos h]
    · rw [if_neg h, if_pos]
      unfold scale_factor add_offset
      have : (q : ℚ) < 0 := by exact_mod_cast hq
      nlinarith
  · intro v hlo hhi
    rcases eq_or_ne v ((fill_value : ℚ) / scale_factor) with h | h
    · simp only [encodeCell]
      rw [if_pos h, decodeCell_fill]
    · have hqneg : rint (v / scale_factor) < 0 := by
        apply rint_neg_of_lt_half
        unfold scale_factor at hhi ⊢
        nlinarith
      have hqlo : -32768 ≤ rint (v / scale_factor) := by
        apply rint_ge_of_ge
        unfold scale_factor at hlo ⊢
        push_cast
        nlinarith
      simp only [encodeCell]
      rw [if_neg h, toInt16_eq_self hqlo (by omega)]
      unfold decodeCell
      rcases eq_or_ne (rint (v / scale_factor)) fill_value with hf | hf
      · rw [if_pos hf]
      · rw [if_neg hf, if_pos]
        unfold scale_factor add_offset
        have : (rint (v / (1/10)) : ℚ) < 0 := by
          exact_mod_cast hqneg
        nlinarith
  · intro v h1 h2
    have hne : v ≠ (fill_value : ℚ) / scale_factor := by
      intro h
      rw [h] at h1
      norm_num [fill_value, scale_factor] at h1
    have hq : rint (v / scale_factor) = 0 := by
      apply rint_zero_of_small_neg
      · unfold scale_factor at h1 ⊢
        nlinarith
      · unfold scale_factor
        have : (0:ℚ) < 1/10 := by norm_num
        exact div_neg_of_neg_of_pos h2 this
    simp only [encodeCell]
    rw [if_neg hne, hq]
    norm_num [decodeCell, toInt16, fill_value, scale_factor, add_offset]

/-- Witness instantiating the conditional parts of `C10_amended` at
concrete inputs. -/
theorem C10_amended_witness :
    (0 : ℚ) ≤ 0 ∧ decodeCell (-5) = none ∧
      decodeCell (encodeCell (some (-2 : ℚ))) = none ∧
      decodeCell (encodeCell (some (-1/50 : ℚ))) = some 0 :=
  ⟨C10_amended.1 0 0 (by norm_num [decodeCell, fill_value, scale_factor, add_offset]),
   C10_amended.2.1 (-5) (by norm_num),
   C10_amended.2.2.1 (-2) (by norm_num [scale_factor]) (by norm_num [scale_factor]),
   C10_amended.2.2.2 (-1/50) (by norm_num [scale_factor]) (by norm_num)⟩

/-! ### Strings, zero-padded decimal formatting, lexicographic order

Python strings are modelled as `List Char`.  `padNum k n` is the
zero-padded `k`-digit decimal rendering of `n` (most significant digit
first), modelling `strftime` zero-padded fields and `f"{ens:02d}"` for
`0 ≤ ens ≤ 99`. -/

def padNum : ℕ → ℕ → List Char
  | 0, _ => []
  | k+1, n => Nat.digitChar (n / 10^k) :: padNum k (n % 10^k)

theorem padNum_length (k n : ℕ) : (padNum k n).length = k := by
  induction k generalizing n with
  | zero => rfl
  | succ k ih => simp [padNum, ih]

theorem digitChar_inj_lt : ∀ a < 10, ∀ b < 10,
    Nat.digitChar a = Nat.digitChar b → a = b := by decide

theorem digitChar_lt_iff : ∀ a < 10, ∀ b < 10,
    (a < b ↔ Nat.digitChar a < Nat.digitChar b) := by decide

theorem digitChar_mem_digits : ∀ a < 10,
    Nat.digitChar a ∈ ['0','1','2','3','4','5','6','7','8','9'] := by decide

theorem padNum_inj (k : ℕ) : ∀ n m, n < 10^k → m < 10^k →
    padNum k n = padNum k m → n = m := by
  induction k with
  | zero => intro n m hn hm _; omega
  | succ k ih =>
    intro n m hn hm h
    simp only [padNum, List.cons.injEq] at h
    have hp : 0 < 10^k := Nat.pos_pow_of_pos k (by norm_num)
    have hqn : n / 10^k < 10 := by
      rw [Nat.div_lt_iff_lt_mul hp]
      calc n < 10^(k+1) := hn
        _ = 10 * 10^k := by ring
    have hqm : m / 10^k < 10 := by
      rw [Nat.div_lt_iff_lt_mul hp]
      calc m < 10^(k+1) := hm
        _ = 10 * 10^k := by ring
    have hq : n / 10^k = m / 10^k := digitChar_inj_lt _ hqn _ hqm h.1
    have hr : n % 10^k = m % 10^k :=
      ih _ _ (Nat.mod_lt n hp) (Nat.mod_lt m hp) h.2
    have h1 := Nat.div_add_mod n (10^k)
    have h2 := Nat.div_add_mod m (10^k)
    rw [hq, hr] at h1
    omega

/-- Strict lexicographic order on char lists (Python `<` on `str`). -/
def lexLt : List Char → List Char → Bool
  | [], [] => false
  | [], _ :: _ => true
  | _ :: _, [] => false
  | a :: as, b :: bs => if a < b then true else if a = b then lexLt as bs else false

def lexLe (a b : List Char) : Bool := lexLt a b || a == b

theorem lexLt_irrefl : ∀ a : List Char, lexLt a a = false := by
  intro a
  induction a with
  | nil => rfl
  | cons c cs ih => simp [lexLt, lt_irrefl, ih]

theorem lexLt_ne {a b : List Char} (h : lexLt a b = true) : a ≠ b := by
  intro he
  rw [he, lexLt_irrefl] at h
  exact Bool.false_ne_true h

theorem lexLt_cons_same {a b : List Char} (c : Char) (h : lexLt a b = true) :
    lexLt (c :: a) (c :: b) = true := by
  simp only [lexLt]
  simp [h]

theorem lexLt_append_same (p : List Char) {a b : List Char}
    (h : lexLt a b = true) : lexLt (p ++ a) (p ++ b) = true := by
  induction p with
  | nil => simpa
  | cons c cs ih => exact lexLt_cons_same c ih

theorem lexLt_append_of_lt : ∀ (a b s t : List Char),
    a.length = b.length → lexLt a b = true →
    lexLt (a ++ s) (b ++ t) = true := by
  intro a
  induction a with
  | nil =>
    intro b s t hlen h
    cases b with
    | nil => exact absurd h (by simp [lexLt])
    | cons d ds => simp at hlen
  | cons c cs ih =>
    intro b s t hlen h
    cases b with
    | nil => simp at hlen
    | cons d ds =>
      simp only [lexLt] at h
      simp only [List.cons_append, lexLt]
      by_cases hcd : c < d
      · rw [if_pos hcd]
      · rw [if_neg hcd] at h ⊢
        by_cases hce : c = d
        · rw [if_pos hce] at h ⊢
          exact ih ds _ _ (by simpa using hlen) h
        · rw [if_neg hce] at h
          exact absurd h (by simp)

theorem padNum_lt_of_lt (k : ℕ) : ∀ n m, m < 10^k → n < m →
    lexLt (padNum k n) (padNum k m) = true := by
  induction k with
  | zero => intro n m hm hnm; omega
  | succ k ih =>
    intro n m hm hnm
    have hp : 0 < 10^k := Nat.pos_pow_of_pos k (by norm_num)
    have hqm : m / 10^k < 10 := by
      rw [Nat.div_lt_iff_lt_mul hp]
      calc m < 10^(k+1) := hm
        _ = 10 * 10^k := by ring
    have hqn : n / 10^k < 10 := by
      rw [Nat.div_lt_iff_lt_mul hp]
      calc n < m := hnm
        _ < 10^(k+1) := hm
        _ = 10 * 10^k := by ring
    have hqle : n / 10^k ≤ m / 10^k := Nat.div_le_div_right (le_of_lt hnm)
    simp only [padNum, lexLt]
    rcases lt_or_eq_of_le hqle with hq | hq
    · rw [if_pos ((digitChar_lt_iff _ hqn _ hqm).mp hq)]
    · rw [hq, if_neg (lt_irrefl _), if_pos rfl]
      apply ih
      · exact Nat.mod_lt m hp
      · have h1 := Nat.div_add_mod n (10^k)
        have h2 := Nat.div_add_mod m (10^k)
        rw [hq] at h1
        omega

/-! ### Datetimes and `make_nc_name` of `nc_utils.py`

`datetime.datetime` is modelled by its calendar fields plus a
timezone-awareness flag; aware values are UTC (the write paths of this
layer require aware-UTC input, and `make_nc_name` interprets naive input
as UTC without changing the fields). -/

structure PyDateTime where
  year : ℕ
  month : ℕ
  day : ℕ
  hour : ℕ
  minute : ℕ
  second : ℕ
  tzAware : Bool
deriving DecidableEq

/-- Calendar validity of a `datetime.datetime` with a four-digit year
(CPython's `%Y` is not zero-padded below year 1000 on common platforms,
so the lexicographic-filename properties are stated for 4-digit years). -/
def ValidDT (t : PyDateTime) : Prop :=
  1000 ≤ t.year ∧ t.year ≤ 9999 ∧ 1 ≤ t.month ∧ t.month ≤ 12 ∧
    1 ≤ t.day ∧ t.day ≤ 31 ∧ t.hour ≤ 23 ∧ t.minute ≤ 59 ∧ t.second ≤ 59

instance (t : PyDateTime) : Decidable (ValidDT t) := by
  unfold ValidDT; infer_instance

/-- `valid_time.strftime("%Y%m%dT%H%M%S")`. -/
def strftimeV (t : PyDateTime) : List Char :=
  padNum 4 t.year ++ (padNum 2 t.month ++ (padNum 2 t.day ++
    ('T' :: (padNum 2 t.hour ++ (padNum 2 t.minute ++ padNum 2 t.second)))))

theorem strftimeV_length (t : PyDateTime) : (strftimeV t).length = 15 := by
  simp [strftimeV, padNum_length]

/-- The `_$B{%Y%m%dT%H%M%S}` segment appended to the default template
when a base time is given. -/
def btToken (base_time : Option PyDateTime) : List Char :=
  match base_time with
  | some b => '_' :: strftimeV b
  | none => []

/-- The `_$E` segment appended to the default template when an ensemble
number is given; `$E` is substituted with `f"{ens:02d}"`. -/
def ensToken (ens : Option ℕ) : List Char :=
  match ens with
  | some e => '_' :: padNum 2 e
  | none => []

/-- `make_nc_name` of `nc_utils.py`, specialised to its default-template
path (`name_template=None`): the template is built as
`"$N_$P_$V{%Y%m%dT%H%M%S}"`, plus `"_$B{%Y%m%dT%H%M%S}"` when a base
time is given, plus `"_$E"` when an ensemble number is given, plus
`".nc"`; the substitution loop then replaces the tokens left to right
(this expansion is the loop's result whenever `name` and `prod` do not
themselves contain a `$` token, which would be re-scanned by the loop).
Naive times are interpreted as UTC, which leaves the formatted calendar
fields unchanged, so the timezone flag does not affect the result. -/
def make_nc_name (name prod : List Char) (valid_time : PyDateTime)
    (base_time : Option PyDateTime) (ens : Option ℕ) : List Char :=
  name ++ '_' :: (prod ++ '_' :: (strftimeV valid_time ++
    (btToken base_time ++ (ensToken ens ++ ['.', 'n', 'c']))))

/-! ### Injectivity and monotonicity of the default-template filename -/

theorem strftimeV_inj {t t' : PyDateTime} (ht : ValidDT t) (ht' : ValidDT t')
    (h : strftimeV t = strftimeV t') :
    t.year = t'.year ∧ t.month = t'.month ∧ t.day = t'.day ∧
      t.hour = t'.hour ∧ t.minute = t'.minute ∧ t.second = t'.second := by
  obtain ⟨hy1, hy2, hm1, hm2, hd1, hd2, hh, hmi, hs⟩ := ht
  obtain ⟨hy1', hy2', hm1', hm2', hd1', hd2', hh', hmi', hs'⟩ := ht'
  unfold strftimeV at h
  obtain ⟨h1, h⟩ := List.append_inj h (by simp [padNum_length])
  obtain ⟨h2, h⟩ := List.append_inj h (by simp [padNum_length])
  obtain ⟨h3, h⟩ := List.append_inj h (by simp [padNum_length])
  rw [List.cons.injEq] at h
  obtain ⟨h4, h⟩ := List.append_inj h.2 (by simp [padNum_length])
  obtain ⟨h5, h6⟩ := List.append_inj h (by simp [padNum_length])
  refine ⟨?_, ?_, ?_, ?_, ?_, ?_⟩
  · exact padNum_inj 4 _ _ (by omega) (by omega) h1
  · exact padNum_inj 2 _ _ (by omega) (by omega) h2
  · exact padNum_inj 2 _ _ (by omega) (by omega) h3
  · exact padNum_inj 2 _ _ (by omega) (by omega) h4
  · exact padNum_inj 2 _ _ (by omega) (by omega) h5
  · exact padNum_inj 2 _ _ (by omega) (by omega) h6

/-- Chronological (field-lexicographic) strict order on datetimes. -/
def dtLt (a b : PyDateTime) : Prop :=
  a.year < b.year ∨ (a.year = b.year ∧ (a.month < b.month ∨ (a.month = b.month ∧
    (a.day < b.day ∨ (a.day = b.day ∧ (a.hour < b.hour ∨ (a.hour = b.hour ∧
      (a.minute < b.minute ∨ (a.minute = b.minute ∧ a.second < b.second)))))))))

instance (a b : PyDateTime) : Decidable (dtLt a b) := by
  unfold dtLt; infer_instance

/-- The date token of the filename template is lexicographically
time-ordered: a strictly earlier valid datetime gives a strictly
lexicographically smaller `%Y%m%dT%H%M%S` string. -/
theorem strftimeV_mono {t t' : PyDateTime} (ht : ValidDT t) (ht' : ValidDT t')
    (h : dtLt t t') : lexLt (strftimeV t) (strftimeV t') = true := by
  obtain ⟨hy1, hy2, hm1, hm2, hd1, hd2, hh, hmi, hs⟩ := ht
  obtain ⟨hy1', hy2', hm1', hm2', hd1', hd2', hh', hmi', hs'⟩ := ht'
  unfold strftimeV
  rcases h with hlt | ⟨he1, h⟩
  · exact lexLt_append_of_lt _ _ _ _ (by simp [padNum_length])
      (padNum_lt_of_lt 4 _ _ (by omega) hlt)
  · rw [he1]
    apply lexLt_append_same
    rcases h with hlt | ⟨he2, h⟩
    · exact lexLt_append_of_lt _ _ _ _ (by simp [padNum_length])
        (padNum_lt_of_lt 2 _ _ (by omega) hlt)
    · rw [he2]
      apply lexLt_append_same
      rcases h with hlt | ⟨he3, h⟩
      · exact lexLt_append_of_lt _ _ _ _ (by simp [padNum_length])
          (padNum_lt_of_lt 2 _ _ (by omega) hlt)
      · rw [he3]
        apply lexLt_append_same
        apply lexLt_cons_same
        rcases h with hlt | ⟨he4, h⟩
        · exact lexLt_append_of_lt _ _ _ _ (by simp [padNum_length])
            (padNum_lt_of_lt 2 _ _ (by omega) hlt)
        · rw [he4]
          apply lexLt_append_same
          rcases h with hlt | ⟨he5, hlt6⟩
          · exact lexLt_append_of_lt _ _ _ _ (by simp [padNum_length])
              (padNum_lt_of_lt 2 _ _ (by omega) hlt)
          · rw [he5]
            apply lexLt_append_same
            exact padNum_lt_of_lt 2 _ _ (by omega) hlt6

theorem split_underscore : ∀ (a : List Char), ∀ {b s t : List Char},
    '_' ∉ a → '_' ∉ b → a ++ '_' :: s = b ++ '_' :: t → a = b ∧ s = t := by
  intro a
  induction a with
  | nil =>
    intro b s t _ hb h
    cases b with
    | nil =>
      simp only [List.nil_append, List.cons.injEq] at h
      exact ⟨rfl, h.2⟩
    | cons d ds =>
      simp only [List.nil_append, List.cons_append, List.cons.injEq] at h
      exact absurd (by rw [← h.1]; exact List.mem_cons_self _ _) hb
  | cons c cs ih =>
    intro b s t ha hb h
    cases b with
    | nil =>
      simp only [List.cons_append, List.nil_append, List.cons.injEq] at h
      exact absurd (by rw [h.1]; exact List.mem_cons_self _ _) ha
    | cons d ds =>
      simp only [List.cons_append, List.cons.injEq] at h
      have ha' : '_' ∉ cs := fun hm => ha (List.mem_cons_of_mem _ hm)
      have hb' : '_' ∉ ds := fun hm => hb (List.mem_cons_of_mem _ hm)
      obtain ⟨he, hst⟩ := ih ha' hb' h.2
      exact ⟨by rw [h.1, he], hst⟩

theorem PyDateTime_eq_of_fields {a b : PyDateTime}
    (h : a.year = b.year ∧ a.month = b.month ∧ a.day = b.day ∧
      a.hour = b.hour ∧ a.minute = b.minute ∧ a.second = b.second)
    (htz : a.tzAware = b.tzAware) : a = b := by
  cases a; cases b; simp_all

theorem ensTail_inj {e e' : Option ℕ} (he : ∀ x ∈ e, x ≤ 99)
    (he' : ∀ x ∈ e', x ≤ 99)
    (h : ensToken e ++ ['.','n','c'] = ensToken e' ++ ['.','n','c']) :
    e = e' := by
  match e, e' with
  | none, none => rfl
  | none, some x =>
    have hl := congrArg List.length h
    simp [ensToken, padNum_length] at hl
  | some x, none =>
    have hl := congrArg List.length h
    simp [ensToken, padNum_length] at hl
  | some x, some x' =>
    simp only [ensToken, List.cons_append, List.cons.injEq] at h
    obtain ⟨hp, _⟩ := List.append_inj h.2 (by simp [padNum_length])
    have hx := he x rfl
    have hx' := he' x' rfl
    rw [padNum_inj 2 x x' (by omega) (by omega) hp]

theorem btTail_inj {bt bt' : Option PyDateTime} {e e' : Option ℕ}
    (hbv : ∀ b ∈ bt, ValidDT b) (hbv' : ∀ b ∈ bt', ValidDT b)
    (hbz : ∀ b ∈ bt, b.tzAware = true) (hbz' : ∀ b ∈ bt', b.tzAware = true)
    (he : ∀ x ∈ e, x ≤ 99) (he' : ∀ x ∈ e', x ≤ 99)
    (h : btToken bt ++ (ensToken e ++ ['.','n','c']) =
      btToken bt' ++ (ensToken e' ++ ['.','n','c'])) :
    bt = bt' ∧ e = e' := by
  match bt, bt' with
  | none, none =>
    simp only [btToken, List.nil_append] at h
    exact ⟨rfl, ensTail_inj he he' h⟩
  | none, some b' =>
    have hl := congrArg List.length h
    cases e <;> cases e' <;>
      simp [btToken, ensToken, padNum_length, strftimeV_length] at hl
  | some b, none =>
    have hl := congrArg List.length h
    cases e <;> cases e' <;>
      simp [btToken, ensToken, padNum_length, strftimeV_length] at hl
  | some b, some b' =>
    simp only [btToken, List.cons_append, List.cons.injEq] at h
    obtain ⟨hsf, htail⟩ := List.append_inj h.2 (by simp [strftimeV_length])
    have hb := strftimeV_inj (hbv b rfl) (hbv' b' rfl) hsf
    have hteq : b = b' :=
      PyDateTime_eq_of_fields hb (by rw [hbz b rfl, hbz' b' rfl])
    exact ⟨by rw [hteq], ensTail_inj he he' htail⟩

/-! ### Claim C6 -/

/-- **C6 counterexample** — distinct (domain, product) pairs can collide
because the template joins tokens with `_` and token values may contain
`_`: domain `"a_b"` with product `"c"` and domain `"a"` with product
`"b_c"` give the same filename at the same valid time, refuting the
claimed injectivity on distinct tuples. -/
theorem C6_counterexample :
    make_nc_name "a_b".data "c".data ⟨2025, 7, 3, 1, 0, 0, true⟩ none none =
      make_nc_name "a".data "b_c".data ⟨2025, 7, 3, 1, 0, 0, true⟩ none none ∧
    ¬("a_b".data = "a".data ∧ "c".data = "b_c".data) := by
  exact ⟨by decide, by decide⟩

/-- **C6 (amended)** — `make_nc_name` is a pure function of its
arguments (identical inputs give identical filenames), and under the
default template it is injective on (domain, product, valid_time,
base_time, ensemble) tuples provided domain and product contain no `_`
separator, the datetimes are timezone-aware with valid 4-digit-year
calendar fields, and the ensemble number fits the two-digit `$E` field
(0 ≤ ens ≤ 99). -/
theorem C6_amended (name prod name' prod' : List Char) (t t' : PyDateTime)
    (bt bt' : Option PyDateTime) (e e' : Option ℕ)
    (hn : '_' ∉ name) (hn' : '_' ∉ name') (hp : '_' ∉ prod) (hp' : '_' ∉ prod')
    (ht : ValidDT t) (ht' : ValidDT t')
    (htz : t.tzAware = true) (htz' : t'.tzAware = true)
    (hbv : ∀ b ∈ bt, ValidDT b) (hbv' : ∀ b ∈ bt', ValidDT b)
    (hbz : ∀ b ∈ bt, b.tzAware = true) (hbz' : ∀ b ∈ bt', b.tzAware = true)
    (he : ∀ x ∈ e, x ≤ 99) (he' : ∀ x ∈ e', x ≤ 99) :
    make_nc_name name prod t bt e = make_nc_name name prod t bt e ∧
    (make_nc_name name prod t bt e = make_nc_name name' prod' t' bt' e' →
      name = name' ∧ prod = prod' ∧ t = t' ∧ bt = bt' ∧ e = e') := by
  refine ⟨rfl, fun h => ?_⟩
  unfold make_nc_name at h
  obtain ⟨hname, h⟩ := split_underscore name hn hn' h
  obtain ⟨hprod, h⟩ := split_underscore prod hp hp' h
  obtain ⟨hV, h⟩ := List.append_inj h (by simp [strftimeV_length])
  have hbte := btTail_inj hbv hbv' hbz hbz' he he' h
  have ht_eq : t = t' :=
    PyDateTime_eq_of_fields (strftimeV_inj ht ht' hV) (by rw [htz, htz'])
  exact ⟨hname, hprod, ht_eq, hbte.1, hbte.2⟩

/-- Witness applying `C6_amended` at concrete inputs. -/
theorem C6_amended_witness :
    make_nc_name "akl".data "qpe".data ⟨2025, 7, 3, 1, 0, 0, true⟩ none (some 7) =
      make_nc_name "akl".data "qpe".data ⟨2025, 7, 3, 1, 0, 0, true⟩ none (some 7) ∧
    ("akl".data = "akl".data ∧ "qpe".data = "qpe".data ∧
      (⟨2025, 7, 3, 1, 0, 0, true⟩ : PyDateTime) = ⟨2025, 7, 3, 1, 0, 0, true⟩ ∧
      (none : Option PyDateTime) = none ∧ (some 7 : Option ℕ) = some 7) := by
  have h := C6_amended "akl".data "qpe".data "akl".data "qpe".data
    ⟨2025, 7, 3, 1, 0, 0, true⟩ ⟨2025, 7, 3, 1, 0, 0, true⟩ none none (some 7) (some 7)
    (by decide) (by decide) (by decide) (by decide) (by decide) (by decide)
    rfl rfl (by decide) (by decide) (by decide) (by decide) (by decide) (by decide)
  exact ⟨h.1, h.2 rfl⟩

/-! ### Python dicts (metadata documents)

Metadata documents are Python dicts with string keys; they are modelled
as insertion-ordered association lists.  `dictSet` is item assignment
(replace in place if the key exists, else append — Python‑dict order
semantics), `dictUpdate` is `dict.update`. -/

inductive Val where
  | vStr (s : String)
  | vDT (t : PyDateTime)
  | vNum (q : ℚ)
  | vInt (n : ℤ)
  | vBool (b : Bool)
  | vList (l : List ℚ)
  | vLevels (c : List (List (List ℚ)))
  | vNaN
  | vNone
deriving DecidableEq

abbrev Dict := List (String × Val)

def dictGet (d : Dict) (k : String) : Option Val :=
  (d.find? (fun kv => kv.1 == k)).map (fun kv => kv.2)

def dictSet : Dict → String → Val → Dict
  | [], k, v => [(k, v)]
  | (k', v') :: rest, k, v =>
    if k' == k then (k', v) :: rest else (k', v') :: dictSet rest k v

def dictUpdate (d : Dict) (fm : Dict) : Dict :=
  fm.foldl (fun acc kv => dictSet acc kv.1 kv.2) d

/-! ### `make_metadata` of `gridfs_io.py`

A raster (`xarray.DataArray`) is a 2D grid of float cells; NaN cells are
`none`.  The xarray reductions `mean`/`std`/`max` skip NaN cells and
give NaN on an all-NaN (or empty) grid; `np.count_nonzero(rain >= 1)`
counts finite cells `≥ 1` (NaN compares false).  `np.round(x, 3)` is
half-to-even at the third decimal.  The standard deviation is the square
root of the variance, which is irrational in general; the model stores
the (rounded) variance instead — an injective stand-in whose exact value
no claim inspects. -/

abbrev Raster := List (List (Option ℚ))

def finiteVals (r : Raster) : List ℚ :=
  (r.map (fun row => row.filterMap id)).flatten

def rasterSize (r : Raster) : ℕ := (r.map List.length).sum

def wetCount (r : Raster) : ℕ :=
  (r.map (fun row =>
    row.countP (fun c => match c with
      | some v => decide (1 ≤ v)
      | none => false))).sum

def round3 (x : ℚ) : ℚ := (rint (x * 1000) : ℚ) / 1000

def statMean (r : Raster) : Val :=
  match finiteVals r with
  | [] => Val.vNaN
  | x :: xs => Val.vNum (round3 ((x :: xs).sum / (x :: xs).length))

def statMax (r : Raster) : Val :=
  match finiteVals r with
  | [] => Val.vNaN
  | x :: xs => Val.vNum (round3 (xs.foldl max x))

def statStdModel (r : Raster) : Val :=
  match finiteVals r with
  | [] => Val.vNaN
  | x :: xs =>
    Val.vNum (round3
      (((x :: xs).map (fun v => (v - (x :: xs).sum / (x :: xs).length)^2)).sum /
        (x :: xs).length))

/-- Days between 1970-01-01 and the given civil date (proleptic
Gregorian), the standard era-based algorithm; used to model
`datetime.datetime` subtraction. -/
def daysFromCivil (y m d : ℤ) : ℤ :=
  let y2 := y - (if m ≤ 2 then 1 else 0)
  let era := (if 0 ≤ y2 then y2 else y2 - 399) / 400
  let yoe := y2 - era * 400
  let mp := (m + 9) % 12
  let doy := (153 * mp + 2) / 5 + d - 1
  let doe := yoe * 365 + yoe / 4 - yoe / 100 + doy
  era * 146097 + doe - 719468

def toEpochSeconds (t : PyDateTime) : ℤ :=
  86400 * daysFromCivil t.year t.month t.day +
    3600 * (t.hour : ℤ) + 60 * (t.minute : ℤ) + (t.second : ℤ)

/-- `make_metadata` of `gridfs_io.py`: raises `ValueError` on a naive
`valid_time` or a naive supplied `base_time` (checking `valid_time`
first), raises `ZeroDivisionError` on an empty raster (the
wetted-area-ratio divides by `rain.size`), and otherwise builds the
metadata dict in the source's key order.  `forecast_lead_time` is
`(valid_time - base_time).total_seconds()` when `base_time` is given
(datetimes are always truthy in Python), else `None`. -/
def make_metadata (rain : Raster) (product domain : String)
    (valid_time : PyDateTime) (base_time : Option PyDateTime)
    (ensemble : Option ℤ) : Except String Dict :=
  if valid_time.tzAware = false then
    .error "valid_time must be timezone-aware (UTC)"
  else if (match base_time with | some b => !b.tzAware | none => false) then
    .error "base_time must be timezone-aware (UTC) if provided"
  else if rasterSize rain = 0 then
    .error "ZeroDivisionError"
  else
    .ok [("domain", Val.vStr domain),
         ("product", Val.vStr product),
         ("valid_time", Val.vDT valid_time),
         ("base_time", match base_time with
            | some b => Val.vDT b
            | none => Val.vNone),
         ("ensemble", match ensemble with
            | some n => Val.vInt n
            | none => Val.vNone),
         ("mean", statMean rain),
         ("wetted_area_ratio",
            Val.vNum (round3 ((wetCount rain : ℚ) / (rasterSize rain : ℚ)))),
         ("std_dev", statStdModel rain),
         ("max", statMax rain),
         ("forecast_lead_time", match base_time with
            | some b =>
              Val.vNum (((toEpochSeconds valid_time - toEpochSeconds b : ℤ) : ℚ))
            | none => Val.vNone)]

/-! ### Claim C8 -/

/-- **C8** — `make_metadata` raises a validation error whenever the
supplied `valid_time` is naive, and likewise when a supplied `base_time`
is naive; it never silently corrects such input.  For timezone-aware
input (on a nonempty raster, where the call succeeds) the returned
metadata's `forecast_lead_time` equals `valid_time - base_time` in
seconds, or `None` when `base_time` is absent. -/
theorem C8_validation (rain : Raster) (product domain : String)
    (vt : PyDateTime) (bt : Option PyDateTime) (ens : Option ℤ) :
    (vt.tzAware = false →
      make_metadata rain product domain vt bt ens =
        .error "valid_time must be timezone-aware (UTC)") ∧
    (∀ b, bt = some b → b.tzAware = false → vt.tzAware = true →
      make_metadata rain product domain vt bt ens =
        .error "base_time must be timezone-aware (UTC) if provided") ∧
    (vt.tzAware = true → (∀ b ∈ bt, b.tzAware = true) → 0 < rasterSize rain →
      ∃ md, make_metadata rain product domain vt bt ens = .ok md ∧
        dictGet md "forecast_lead_time" =
          some (match bt with
            | some b =>
              Val.vNum (((toEpochSeconds vt - toEpochSeconds b : ℤ) : ℚ))
            | none => Val.vNone)) := by
  refine ⟨?_, ?_, ?_⟩
  · intro h
    unfold make_metadata
    rw [if_pos h]
  · intro b hb hbtz hvtz
    subst hb
    unfold make_metadata
    rw [if_neg (by simp [hvtz]), if_pos (by show (!b.tzAware) = true; simp [hbtz])]
  · intro hvtz hbtz hsz
    unfold make_metadata
    rw [if_neg (by simp [hvtz]), if_neg, if_neg (by omega)]
    · refine ⟨_, rfl, ?_⟩
      cases bt <;> rfl
    · cases bt with
      | none => simp
      | some b => show ¬(!b.tzAware) = true; simp [hbtz b rfl]

/-- Witness applying `C8_validation` at concrete inputs: a naive
valid_time errors, a naive base_time errors, and an aware pair yields
`forecast_lead_time` of 3600 seconds. -/
theorem C8_validation_witness :
    make_metadata [[some 2]] "qpe" "akl" ⟨2025, 7, 3, 1, 0, 0, false⟩ none none =
      .error "valid_time must be timezone-aware (UTC)" ∧
    make_metadata [[some 2]] "qpe" "akl" ⟨2025, 7, 3, 1, 0, 0, true⟩
        (some ⟨2025, 7, 3, 0, 0, 0, false⟩) none =
      .error "base_time must be timezone-aware (UTC) if provided" ∧
    (∃ md, make_metadata [[some 2]] "qpe" "akl" ⟨2025, 7, 3, 1, 0, 0, true⟩
        (some ⟨2025, 7, 3, 0, 0, 0, true⟩) none = .ok md ∧
      dictGet md "forecast_lead_time" =
        some (Val.vNum (((toEpochSeconds ⟨2025, 7, 3, 1, 0, 0, true⟩ -
          toEpochSeconds ⟨2025, 7, 3, 0, 0, 0, true⟩ : ℤ) : ℚ)))) :=
  ⟨(C8_validation [[some 2]] "qpe" "akl" ⟨2025, 7, 3, 1, 0, 0, false⟩ none none).1 rfl,
   (C8_validation [[some 2]] "qpe" "akl" ⟨2025, 7, 3, 1, 0, 0, true⟩
      (some ⟨2025, 7, 3, 0, 0, 0, false⟩) none).2.1 _ rfl rfl rfl,
   (C8_validation [[some 2]] "qpe" "akl" ⟨2025, 7, 3, 1, 0, 0, true⟩
      (some ⟨2025, 7, 3, 0, 0, 0, true⟩) none).2.2 rfl (by decide) (by decide)⟩

/-! ### The GridFS-backed blob store of `gridfs_io.py`

A GridFS bucket plus its `<bucket>.files` metadata collection is
modelled as a list of records in insertion order: each record is a
filename, a blob and the metadata document.  The blob distinguishes the
two failure points of the read paths: `absent` (the download raises —
missing file/chunks; also a missing GridFS `stream.metadata`, which
`get_state` turns into a `ValueError` inside the same `try`), `corrupt`
(the download succeeds but decoding the bytes fails), and `good`
(decodable content). -/

inductive LogLevel where
  | info
  | warning
  | error
deriving DecidableEq

inductive Blob (α : Type) where
  | absent : Blob α
  | corrupt : Blob α
  | good : α → Blob α
deriving DecidableEq

structure FileRec (α : Type) where
  filename : List Char
  blob : Blob α
  metadata : Dict
deriving DecidableEq

abbrev RainGrid := List (List ℤ)

abbrev RainDB := List (FileRec RainGrid)

abbrev Cascade := List (List (List ℚ))

abbrev Oflow := List (List (List ℚ))

abbrev StateDB := List (FileRec (Cascade × Oflow))

def emptyRaster : Raster := []

/-- `write_rainfield`: delete every existing file with the same
filename, then upload the new payload with its metadata. -/
def write_rainfield (db : RainDB) (filename : List Char)
    (nc_buf : Blob RainGrid) (metadata : Dict) : RainDB :=
  db.filter (fun r => !(r.filename == filename)) ++ [⟨filename, nc_buf, metadata⟩]

/-- `get_rainfield`: look up the metadata document first; if none
exists, log at info level and return an empty raster and empty metadata
(dry-period convention).  Otherwise try the GridFS download and decode
inside one `try`: on any failure, log at error level and return an empty
raster but the stored metadata — the exception is swallowed. -/
def get_rainfield (db : RainDB) (filename : List Char) :
    Except String (Raster × Dict) × List LogLevel :=
  match db.find? (fun r => r.filename == filename) with
  | none => (.ok (emptyRaster, []), [.info])
  | some r =>
    match r.blob with
    | .good g => (.ok (decodeGrid g, r.metadata), [])
    | _ => (.ok (emptyRaster, r.metadata), [.error])

/-- The pysteps cascade decomposition dictionary passed to
`write_state`: `cascade_levels` plus the scalar bookkeeping entries
(arbitrary Python values), with `means`/`stds` optionally present. -/
structure CascadeDict where
  cascade_levels : Cascade
  domain : String
  normalized : Val
  transform : Val
  threshold : Val
  zerovalue : Val
  means : Option (List ℚ)
  stds : Option (List ℚ)
deriving DecidableEq

/-- The metadata document built by `write_state`: the codec entries,
overridden by `metadata.update(field_metadata)`, then `means`/`stds`
when present in the cascade dictionary. -/
def buildStateMeta (c : CascadeDict) (field_metadata : Dict) : Dict :=
  let md : Dict := [("domain", Val.vStr "spatial"),
                    ("normalized", c.normalized),
                    ("transform", c.transform),
                    ("threshold", c.threshold),
                    ("zerovalue", c.zerovalue)]
  let md := dictUpdate md field_metadata
  let md := match c.means with
    | some m => dictSet md "means" (Val.vList m)
    | none => md
  match c.stds with
  | some s => dictSet md "stds" (Val.vList s)
  | none => md

/-- `write_state`: assert the spatial domain, delete every existing file
with the same filename, serialise `cascade_levels` and the optical flow
into one payload, and upload it with the built metadata. -/
def write_state (db : StateDB) (cascade_dict : CascadeDict) (oflow : Oflow)
    (file_name : List Char) (field_metadata : Dict) : Except String StateDB :=
  if cascade_dict.domain = "spatial" then
    .ok (db.filter (fun r => !(r.filename == file_name)) ++
      [⟨file_name, .good (cascade_dict.cascade_levels, oflow),
        buildStateMeta cascade_dict field_metadata⟩])
  else .error "AssertionError: Only 'spatial' domain is supported."

/-- Python `dict.get(k)`: `None` when the key is missing. -/
def dictGetD (d : Dict) (k : String) : Val := (dictGet d k).getD Val.vNone

/-- The cascade dictionary rebuilt by `get_state` from the payload's
levels and the stored metadata (`means`/`stds` only when present). -/
def stateCascadeOut (levels : Cascade) (metadata : Dict) : Dict :=
  let cd : Dict := [("cascade_levels", Val.vLevels levels),
                    ("domain", Val.vStr "spatial"),
                    ("normalized", dictGetD metadata "normalized"),
                    ("transform", dictGetD metadata "transform"),
                    ("threshold", dictGetD metadata "threshold"),
                    ("zerovalue", dictGetD metadata "zerovalue")]
  let cd := match dictGet metadata "means" with
    | some v => dictSet cd "means" v
    | none => cd
  match dictGet metadata "stds" with
  | some v => dictSet cd "stds" v
  | none => cd

/-- `get_state`: metadata lookup first (absent ⇒ info log and three
empty results).  The GridFS download sits inside a `try` whose handler
logs a warning and returns an empty cascade and flow but the stored
metadata; `np.load` of the downloaded buffer however runs *outside* the
`try`, so an undecodable payload raises out of the function. -/
def get_state (db : StateDB) (file_name : List Char) :
    Except String (Dict × Oflow × Dict) × List LogLevel :=
  match db.find? (fun r => r.filename == file_name) with
  | none => (.ok ([], [], []), [.info])
  | some r =>
    match r.blob with
    | .absent => (.ok ([], [], r.metadata), [.warning])
    | .corrupt => (.error "np.load: failed to interpret buffer", [])
    | .good (levels, oflow) =>
      (.ok (stateCascadeOut levels r.metadata, oflow, r.metadata), [])

/-! ### Claims C2, C3, C5 -/

theorem filter_after_write {α : Type} (db : List (FileRec α)) (f : List Char)
    (r : FileRec α) (hr : r.filename = f) :
    ((db.filter (fun x => !(x.filename == f)) ++ [r]).filter
      (fun x => x.filename == f)) = [r] := by
  rw [List.filter_append, List.filter_filter]
  have h1 : (db.filter fun a => ((a.filename == f) && !(a.filename == f))) = [] := by
    rw [List.filter_eq_nil_iff]
    intro a _
    cases h : (a.filename == f) <;> simp [h]
  rw [h1, List.nil_append]
  simp [List.filter, hr]

theorem find?_after_write {α : Type} (db : List (FileRec α)) (f : List Char)
    (r : FileRec α) (hr : r.filename = f) :
    ((db.filter (fun x => !(x.filename == f)) ++ [r]).find?
      (fun x => x.filename == f)) = some r := by
  rw [List.find?_append]
  have h1 : (db.filter fun x => !(x.filename == f)).find?
      (fun x => x.filename == f) = none := by
    rw [List.find?_eq_none]
    intro x hx
    rw [List.mem_filter] at hx
    cases h : (x.filename == f) <;> simp_all
  rw [h1]
  simp [List.find?_cons, hr]

/-- **C2** — Two writes under the same filename (with `write_rainfield`,
and with `write_state` for a spatial cascade) leave exactly one
retrievable record under that filename — the second write's payload and
metadata — and a subsequent single-record read returns the second
write's (decoded) payload and metadata. -/
theorem C2_overwrite (db : RainDB) (sdb : StateDB) (f : List Char)
    (p₁ p₂ : Blob RainGrid) (m₁ m₂ : Dict) (g₂ : RainGrid)
    (c₁ c₂ : CascadeDict) (o₁ o₂ : Oflow) (fm₁ fm₂ : Dict)
    (hp₂ : p₂ = .good g₂)
    (h₁ : c₁.domain = "spatial") (h₂ : c₂.domain = "spatial") :
    ((write_rainfield (write_rainfield db f p₁ m₁) f p₂ m₂).filter
        (fun r => r.filename == f) = [⟨f, p₂, m₂⟩]) ∧
    get_rainfield (write_rainfield (write_rainfield db f p₁ m₁) f p₂ m₂) f =
      (.ok (decodeGrid g₂, m₂), []) ∧
    (∃ sdb₁ sdb₂, write_state sdb c₁ o₁ f fm₁ = .ok sdb₁ ∧
      write_state sdb₁ c₂ o₂ f fm₂ = .ok sdb₂ ∧
      sdb₂.filter (fun r => r.filename == f) =
        [⟨f, .good (c₂.cascade_levels, o₂), buildStateMeta c₂ fm₂⟩] ∧
      get_state sdb₂ f =
        (.ok (stateCascadeOut c₂.cascade_levels (buildStateMeta c₂ fm₂), o₂,
          buildStateMeta c₂ fm₂), [])) := by
  refine ⟨?_, ?_, ?_⟩
  · exact filter_after_write _ f _ rfl
  · unfold get_rainfield write_rainfield
    rw [find?_after_write _ f _ rfl, hp₂]
  · have hw₁ : write_state sdb c₁ o₁ f fm₁ =
        .ok (sdb.filter (fun r => !(r.filename == f)) ++
          [⟨f, .good (c₁.cascade_levels, o₁), buildStateMeta c₁ fm₁⟩]) := by
      unfold write_state
      rw [if_pos h₁]
    have hw₂ : write_state (sdb.filter (fun r => !(r.filename == f)) ++
        [⟨f, .good (c₁.cascade_levels, o₁), buildStateMeta c₁ fm₁⟩]) c₂ o₂ f fm₂ =
        .ok (((sdb.filter (fun r => !(r.filename == f)) ++
          [⟨f, .good (c₁.cascade_levels, o₁), buildStateMeta c₁ fm₁⟩] : StateDB)).filter
            (fun r => !(r.filename == f)) ++
          [⟨f, .good (c₂.cascade_levels, o₂), buildStateMeta c₂ fm₂⟩]) := by
      unfold write_state
      rw [if_pos h₂]
    refine ⟨_, _, hw₁, hw₂, filter_after_write _ f _ rfl, ?_⟩
    unfold get_state
    rw [find?_after_write _ f _ rfl]

/-- Witness applying `C2_overwrite` at concrete inputs. -/
theorem C2_overwrite_witness :
    (((write_rainfield (write_rainfield [] "a".data (Blob.good [[1]])
        [("k", Val.vInt 1)]) "a".data (Blob.good [[2]]) [("k", Val.vInt 2)]).filter
        (fun r => r.filename == "a".data)) =
      [⟨"a".data, Blob.good [[2]], [("k", Val.vInt 2)]⟩]) ∧
    get_rainfield (write_rainfield (write_rainfield [] "a".data
        (Blob.good [[1]]) [("k", Val.vInt 1)]) "a".data (Blob.good [[2]])
        [("k", Val.vInt 2)]) "a".data =
      (.ok (decodeGrid [[2]], [("k", Val.vInt 2)]), []) ∧
    (∃ sdb₁ sdb₂,
      write_state [] ⟨[], "spatial", Val.vBool true, Val.vNone, Val.vNone,
        Val.vNone, none, none⟩ [] "a".data [("k", Val.vInt 1)] = .ok sdb₁ ∧
      write_state sdb₁ ⟨[], "spatial", Val.vBool false, Val.vNone, Val.vNone,
        Val.vNone, none, none⟩ [] "a".data [("k", Val.vInt 2)] = .ok sdb₂ ∧
      sdb₂.filter (fun r => r.filename == "a".data) =
        [⟨"a".data, .good (([] : Cascade), ([] : Oflow)),
          buildStateMeta ⟨[], "spatial", Val.vBool false, Val.vNone, Val.vNone,
            Val.vNone, none, none⟩ [("k", Val.vInt 2)]⟩] ∧
      get_state sdb₂ "a".data =
        (.ok (stateCascadeOut ([] : Cascade)
            (buildStateMeta ⟨[], "spatial", Val.vBool false, Val.vNone,
              Val.vNone, Val.vNone, none, none⟩ [("k", Val.vInt 2)]),
          ([] : Oflow),
          buildStateMeta ⟨[], "spatial", Val.vBool false, Val.vNone, Val.vNone,
            Val.vNone, none, none⟩ [("k", Val.vInt 2)]), [])) :=
  C2_overwrite [] [] "a".data (Blob.good [[1]]) (Blob.good [[2]])
    [("k", Val.vInt 1)] [("k", Val.vInt 2)] [[2]]
    ⟨[], "spatial", Val.vBool true, Val.vNone, Val.vNone, Val.vNone, none, none⟩
    ⟨[], "spatial", Val.vBool false, Val.vNone, Val.vNone, Val.vNone, none, none⟩
    [] [] [("k", Val.vInt 1)] [("k", Val.vInt 2)] rfl rfl rfl

/-- **C3** — A single-record read of a filename with no metadata
document is the dry-period convention, not an error: `get_rainfield`
returns an empty raster and empty metadata, `get_state` returns an empty
cascade dictionary, empty motion field and empty metadata, and both log
at informational (not warning) level. -/
theorem C3_absent (db : RainDB) (sdb : StateDB) (f g : List Char)
    (h1 : db.find? (fun r => r.filename == f) = none)
    (h2 : sdb.find? (fun r => r.filename == g) = none) :
    get_rainfield db f = (.ok (emptyRaster, []), [LogLevel.info]) ∧
    get_state sdb g = (.ok ([], [], []), [LogLevel.info]) := by
  unfold get_rainfield get_state
  rw [h1, h2]
  exact ⟨rfl, rfl⟩

/-- Witness applying `C3_absent` to the empty store. -/
theorem C3_absent_witness :
    get_rainfield [] "x".data = (.ok (emptyRaster, []), [LogLevel.info]) ∧
    get_state [] "x".data = (.ok ([], [], []), [LogLevel.info]) :=
  C3_absent [] [] "x".data "x".data rfl rfl

/-- **C5 counterexample** — metadata exists but the payload is
undecodable, yet `get_rainfield` does *not* fail fast: the `except`
branch returns normally with an empty raster and the stored metadata
(log at error level), so the failure is not surfaced as an error the
caller must handle. -/
theorem C5_counterexample :
    get_rainfield [⟨"f".data, Blob.corrupt, [("product", Val.vStr "qpe")]⟩]
        "f".data =
      (.ok (emptyRaster, [("product", Val.vStr "qpe")]), [LogLevel.error]) := by
  rfl

/-- **C5 (amended)** — When a metadata document exists but the payload
fetch/decode fails, the single-record reads are *not* uniformly strict:
`get_rainfield` swallows both fetch and decode failures (returning an
empty raster plus the stored metadata, logging at error level), and
`get_state` swallows fetch failures (empty cascade and flow plus the
stored metadata, warning level) but does propagate a decode (`np.load`)
failure, which happens outside its `try` block. -/
theorem C5_amended (db : RainDB) (sdb : StateDB) (f g : List Char)
    (r : FileRec RainGrid) (s : FileRec (Cascade × Oflow))
    (hr : db.find? (fun x => x.filename == f) = some r)
    (hs : sdb.find? (fun x => x.filename == g) = some s) :
    (r.blob = .absent ∨ r.blob = .corrupt →
      get_rainfield db f = (.ok (emptyRaster, r.metadata), [LogLevel.error])) ∧
    (s.blob = .absent →
      get_state sdb g = (.ok ([], [], s.metadata), [LogLevel.warning])) ∧
    (s.blob = .corrupt →
      get_state sdb g = (.error "np.load: failed to interpret buffer", [])) := by
  obtain ⟨fn, bl, md⟩ := r
  obtain ⟨gn, sl, sd⟩ := s
  refine ⟨?_, ?_, ?_⟩
  · intro hb
    rcases hb with hb | hb <;>
      (replace hb : bl = _ := hb; subst hb; unfold get_rainfield; rw [hr])
  · intro hb
    replace hb : sl = Blob.absent := hb
    subst hb
    unfold get_state
    rw [hs]
  · intro hb
    replace hb : sl = Blob.corrupt := hb
    subst hb
    unfold get_state
    rw [hs]

/-- Witness applying `C5_amended` to concrete one-record stores. -/
theorem C5_amended_witness :
    (get_rainfield [⟨"f".data, Blob.absent, [("k", Val.vInt 1)]⟩] "f".data =
      (.ok (emptyRaster, [("k", Val.vInt 1)]), [LogLevel.error])) ∧
    (get_state [⟨"g".data, Blob.absent, [("k", Val.vInt 2)]⟩] "g".data =
      (.ok ([], [], [("k", Val.vInt 2)]), [LogLevel.warning])) ∧
    (get_state [⟨"h".data, Blob.corrupt, [("k", Val.vInt 3)]⟩] "h".data =
      (.error "np.load: failed to interpret buffer", [])) :=
  ⟨(C5_amended [⟨"f".data, Blob.absent, [("k", Val.vInt 1)]⟩]
      [⟨"g".data, Blob.absent, [("k", Val.vInt 2)]⟩] "f".data "g".data
      _ _ rfl rfl).1 (Or.inl rfl),
   (C5_amended [⟨"f".data, Blob.absent, [("k", Val.vInt 1)]⟩]
      [⟨"g".data, Blob.absent, [("k", Val.vInt 2)]⟩] "f".data "g".data
      _ _ rfl rfl).2.1 rfl,
   (C5_amended [⟨"f".data, Blob.absent, [("k", Val.vInt 1)]⟩]
      [⟨"h".data, Blob.corrupt, [("k", Val.vInt 3)]⟩] "f".data "h".data
      _ _ rfl rfl).2.2 rfl⟩

/-! ### Claim C9 — `write_config` of `db_utils.py` -/

abbrev ConfigDB := List (PyDateTime × Dict)

/-- Outcome of reaching the store from `write_config`'s `try` body
(`get_db()` + `insert_one`): reachable, or one of the two caught error
classes (`errors.ServerSelectionTimeoutError` ⊂ `errors.PyMongoError`,
matched in that order). -/
inductive ConnResult where
  | ok (db : ConfigDB)
  | serverSelectionTimeout
  | pymongoError
deriving DecidableEq

/-- `write_config` of `db_utils.py`: inserts `{time: now, config: ...}`;
both `except` clauses swallow the store error, log at error level, and
return normally.  The result is the possibly-updated config collection
(`none` when nothing was written); the `Except` layer records whether
any exception escapes the call — it never does. -/
def write_config (conn : ConnResult) (now : PyDateTime) (config : Dict) :
    Except String (Option ConfigDB) × List LogLevel :=
  match conn with
  | .ok db => (.ok (some (db ++ [(now, config)])), [.info])
  | .serverSelectionTimeout => (.ok none, [.error])
  | .pymongoError => (.ok none, [.error])

/-- **C9 counterexample** — with the store unreachable
(`ServerSelectionTimeoutError`), `write_config` returns normally (an
`.ok` result, error-level log) instead of propagating the connectivity
error to its caller: the configuration write path absorbs the failure. -/
theorem C9_counterexample :
    write_config .serverSelectionTimeout ⟨2025, 1, 1, 0, 0, 0, true⟩ [] =
      (.ok none, [LogLevel.error]) := rfl

/-- **C9 (amended)** — `write_config` does not propagate connectivity
errors: it catches `ServerSelectionTimeoutError` and `PyMongoError`,
logs at error level and returns without writing; only on a reachable
store does it append the new config document (and log at info level).
No exception escapes the call in any case. -/
theorem C9_amended :
    (∀ now config db, write_config (.ok db) now config =
      (.ok (some (db ++ [(now, config)])), [LogLevel.info])) ∧
    (∀ now config, write_config .serverSelectionTimeout now config =
      (.ok none, [LogLevel.error])) ∧
    (∀ now config, write_config .pymongoError now config =
      (.ok none, [LogLevel.error])) ∧
    (∀ conn now config, ∃ v, (write_config conn now config).1 = .ok v) :=
  ⟨fun _ _ _ => rfl, fun _ _ => rfl, fun _ _ => rfl,
   fun conn _ _ => by cases conn <;> exact ⟨_, rfl⟩⟩

/-! ### The batch reads `get_rainfields_df` / `get_states_df`

The DataFrame is modelled as its column list plus its row list.  A row
record holds the values the source row-dict carries.  `find(query)` with
projection is `List.filter` over the metadata, `sort("filename",
ASCENDING)` is an insertion sort by filename (MongoDB sorts the string
key ascending), and the per-record loop with its `continue` branches is
a `filterMap`.  After the loop the source does
`df["valid_time"].astype("object")` — when at least one document
matched but every record was skipped, `pd.DataFrame([])` has no columns
at all and this raises `KeyError: 'valid_time'`. -/

def tzNorm (t : PyDateTime) : PyDateTime :=
  if t.tzAware then t else ⟨t.year, t.month, t.day, t.hour, t.minute, t.second, true⟩

structure RainRow where
  domain : Option Val
  product : Option Val
  valid_time : PyDateTime
  base_time : Option PyDateTime
  ensemble : Option Val
  rainfield : Raster
  metadata : Dict
deriving DecidableEq

structure RainDF where
  columns : List String
  rows : List RainRow
deriving DecidableEq

structure StateRow where
  domain : Option Val
  product : Option Val
  valid_time : PyDateTime
  base_time : Option PyDateTime
  ensemble : Option Val
  cascade : Option Dict
  optical_flow : Option Oflow
  metadata : Dict
deriving DecidableEq

structure StateDF where
  columns : List String
  rows : List StateRow
deriving DecidableEq

/-- Columns of the explicit empty rain DataFrame in the source. -/
def rainCols : List String :=
  ["product", "valid_time", "base_time", "ensemble", "rainfield", "metadata"]

/-- Keys (in order) of a non-empty rain row dict in the source. -/
def rainRowCols : List String :=
  ["domain", "product", "valid_time", "base_time", "ensemble", "rainfield",
   "metadata"]

def stateCols : List String :=
  ["product", "valid_time", "base_time", "ensemble", "cascade", "optical_flow",
   "metadata"]

def stateRowCols : List String :=
  ["domain", "product", "valid_time", "base_time", "ensemble", "cascade",
   "optical_flow", "metadata"]

/-- `metadata.get("base_time")` with the read-path timezone patch. -/
def rowBase (md : Dict) : Option PyDateTime :=
  match dictGet md "base_time" with
  | some (Val.vDT b) => some (tzNorm b)
  | _ => none

/-- One iteration of the `get_rainfields_df` loop: skip (`none`) when
`valid_time` is missing/None or the payload download/decode fails; the
returned row carries the source row-dict's values. -/
def processRainDoc (r : FileRec RainGrid) : Option RainRow :=
  match dictGet r.metadata "valid_time" with
  | some (Val.vDT t) =>
    match r.blob with
    | .good g =>
      some ⟨dictGet r.metadata "domain", dictGet r.metadata "product",
        tzNorm t, rowBase r.metadata, dictGet r.metadata "ensemble",
        decodeGrid g, r.metadata⟩
    | _ => none
  | _ => none

/-- Ascending-filename sort relation used to model
`.sort("filename", ASCENDING)`. -/
def recLe {α : Type} (a b : FileRec α) : Prop := lexLe a.filename b.filename = true

instance {α : Type} : DecidableRel (@recLe α) := fun _ _ => by
  unfold recLe; infer_instance

/-- The tail of `get_rainfields_df` after the metadata query: the early
return on an empty result set, the skipping loop, and the final
DataFrame construction (whose `astype` column access raises `KeyError`
when every matched record was skipped). -/
def rainDfAssemble (results : List (FileRec RainGrid)) : Except String RainDF :=
  if results.isEmpty then
    .ok ⟨rainCols, []⟩
  else if (results.filterMap processRainDoc).isEmpty then
    .error "KeyError: 'valid_time'"
  else .ok ⟨rainRowCols, results.filterMap processRainDoc⟩

/-- `get_rainfields_df` of `gridfs_io.py`. -/
def get_rainfields_df (db : RainDB) (query : Dict → Bool) :
    Except String RainDF :=
  rainDfAssemble (List.insertionSort recLe (db.filter (fun r => query r.metadata)))

/-- The cascade row dict built by `get_states_df` (unlike `get_state`,
`means`/`stds` are always present, via `.get`). -/
def statesCascadeRow (levels : Cascade) (md : Dict) : Dict :=
  [("cascade_levels", Val.vLevels levels),
   ("domain", Val.vStr "spatial"),
   ("normalized", dictGetD md "normalized"),
   ("transform", dictGetD md "transform"),
   ("threshold", dictGetD md "threshold"),
   ("zerovalue", dictGetD md "zerovalue"),
   ("means", dictGetD md "means"),
   ("stds", dictGetD md "stds")]

/-- One iteration of the `get_states_df` loop: here both the download
and `np.load` are inside the `try`, so either failure skips the row. -/
def processStateDoc (get_cascade get_optical_flow : Bool)
    (r : FileRec (Cascade × Oflow)) : Option StateRow :=
  match dictGet r.metadata "valid_time" with
  | some (Val.vDT t) =>
    match r.blob with
    | .good (levels, oflow) =>
      some ⟨dictGet r.metadata "domain", dictGet r.metadata "product",
        tzNorm t, rowBase r.metadata, dictGet r.metadata "ensemble",
        (if get_cascade then some (statesCascadeRow levels r.metadata) else none),
        (if get_optical_flow then some oflow else none),
        r.metadata⟩
    | _ => none
  | _ => none

/-- The tail of `get_states_df` after the metadata query (mirrors
`rainDfAssemble`). -/
def stateDfAssemble (get_cascade get_optical_flow : Bool)
    (results : List (FileRec (Cascade × Oflow))) : Except String StateDF :=
  if results.isEmpty then
    .ok ⟨stateCols, []⟩
  else if (results.filterMap (processStateDoc get_cascade get_optical_flow)).isEmpty then
    .error "KeyError: 'valid_time'"
  else .ok ⟨stateRowCols, results.filterMap (processStateDoc get_cascade get_optical_flow)⟩

/-- `get_states_df` of `gridfs_io.py`. -/
def get_states_df (db : StateDB) (query : Dict → Bool)
    (get_cascade get_optical_flow : Bool) : Except String StateDF :=
  stateDfAssemble get_cascade get_optical_flow
    (List.insertionSort recLe (db.filter (fun r => query r.metadata)))

/-! ### Claim C4 -/

/-- **C4** — The batch reads do skip bad records and return an explicit
empty DataFrame when nothing matches, but they are *not* immune to
failing wholesale because of bad records: when at least one metadata
document matches the query and every matched record is skipped (here: a
single document with no `valid_time` in its metadata), `records` is
empty, `pd.DataFrame([])` has no columns, and
`df["valid_time"].astype("object")` raises `KeyError` out of the batch
call.  The third conjunct shows the no-match case does return the empty
DataFrame with the expected columns. -/
theorem C4_allskipped_eval :
    get_rainfields_df [⟨"f".data, Blob.good [[0]], [("product", Val.vStr "qpe")]⟩]
        (fun _ => true) = .error "KeyError: 'valid_time'" ∧
    get_states_df [⟨"f".data, Blob.good ([], []), [("product", Val.vStr "qpe")]⟩]
        (fun _ => true) true true = .error "KeyError: 'valid_time'" ∧
    get_rainfields_df [] (fun _ => true) = .ok ⟨rainCols, []⟩ ∧
    get_states_df [] (fun _ => true) true true = .ok ⟨stateCols, []⟩ :=
  ⟨rfl, rfl, rfl, rfl⟩

/-! ### Claim C7 — range query over ascending writes -/

/-- Chronological key of a (UTC-normalised) datetime; MongoDB's
comparison of the stored BSON `valid_time` values in `$gte`/`$lte`
filters is modelled by comparing these keys, which for valid calendar
fields coincides with chronological order. -/
def dtKey (t : PyDateTime) : ℕ :=
  ((((t.year * 100 + t.month) * 100 + t.day) * 100 + t.hour) * 100 +
    t.minute) * 100 + t.second

/-- The metadata filter
`{"metadata.valid_time": {"$gte": lo, "$lte": hi}}`. -/
def rangeQuery (lo hi : PyDateTime) (md : Dict) : Bool :=
  match dictGet md "valid_time" with
  | some (Val.vDT t) => decide (dtKey lo ≤ dtKey t) && decide (dtKey t ≤ dtKey hi)
  | _ => false

theorem dtKey_lt_of_dtLt {a b : PyDateTime} (ha : ValidDT a) (hb : ValidDT b)
    (h : dtLt a b) : dtKey a < dtKey b := by
  obtain ⟨ha1, ha2, ha3, ha4, ha5, ha6, ha7, ha8, ha9⟩ := ha
  obtain ⟨hb1, hb2, hb3, hb4, hb5, hb6, hb7, hb8, hb9⟩ := hb
  unfold dtKey
  unfold dtLt at h
  omega

theorem lexLe_of_lexLt {a b : List Char} (h : lexLt a b = true) :
    lexLe a b = true := by
  unfold lexLe
  rw [h]
  rfl

/-- Ascending valid times give ascending filenames under the default
QPE template (same domain and product, no base time or ensemble). -/
theorem make_nc_name_mono {name prod : List Char} {a b : PyDateTime}
    (ha : ValidDT a) (hb : ValidDT b) (h : dtLt a b) :
    lexLt (make_nc_name name prod a none none)
      (make_nc_name name prod b none none) = true := by
  unfold make_nc_name btToken ensToken
  simp only [List.nil_append]
  apply lexLt_append_same
  apply lexLt_cons_same
  apply lexLt_append_same
  apply lexLt_cons_same
  exact lexLt_append_of_lt _ _ _ _ (by simp [strftimeV_length])
    (strftimeV_mono ha hb h)

/-- Writing a sequence of records with pairwise distinct filenames into
a store that contains none of them appends them in order. -/
theorem foldl_write_eq (F : PyDateTime → List Char)
    (B : PyDateTime → Blob RainGrid) (M : PyDateTime → Dict) :
    ∀ (ts : List PyDateTime) (db : RainDB),
      (∀ t ∈ ts, ∀ r ∈ db, r.filename ≠ F t) →
      List.Pairwise (fun a b => F a ≠ F b) ts →
      ts.foldl (fun d t => write_rainfield d (F t) (B t) (M t)) db =
        db ++ ts.map (fun t => ⟨F t, B t, M t⟩) := by
  intro ts
  induction ts with
  | nil => intro db _ _; simp
  | cons t ts ih =>
    intro db hfresh hpw
    have hdb : write_rainfield db (F t) (B t) (M t) = db ++ [⟨F t, B t, M t⟩] := by
      unfold write_rainfield
      rw [List.filter_eq_self.mpr]
      intro a ha
      have := hfresh t (List.mem_cons_self t ts) a ha
      simp [this]
    have hfresh' : ∀ t' ∈ ts, ∀ r ∈ db ++ [(⟨F t, B t, M t⟩ : FileRec RainGrid)],
        r.filename ≠ F t' := by
      intro t' ht' r hr
      rcases List.mem_append.mp hr with hrdb | hrnew
      · exact hfresh t' (List.mem_cons_of_mem t ht') r hrdb
      · rw [List.mem_singleton.mp hrnew]
        exact (List.pairwise_cons.mp hpw).1 t' ht'
    rw [List.foldl_cons, hdb, ih _ hfresh' (List.pairwise_cons.mp hpw).2]
    rw [List.append_assoc, List.singleton_append, List.map_cons]

theorem filterMap_eq_map_of_some {α β : Type} (f : α → Option β) (e : α → β) :
    ∀ l : List α, (∀ x ∈ l, f x = some (e x)) → l.filterMap f = l.map e := by
  intro l
  induction l with
  | nil => intro _; rfl
  | cons a l ih =>
    intro h
    rw [List.filterMap_cons, h a (List.mem_cons_self a l), List.map_cons,
      ih (fun x hx => h x (List.mem_cons_of_mem a hx))]

theorem le_getLast_of_pairwise :
    ∀ (l : List PyDateTime) (hne : l ≠ []), List.Pairwise dtLt l →
      (∀ t ∈ l, ValidDT t) →
      ∀ t ∈ l, dtKey t ≤ dtKey (l.getLast hne) := by
  intro l
  induction l with
  | nil => intro hne; exact absurd rfl hne
  | cons a rest ih =>
    intro hne hpw hv t ht
    cases rest with
    | nil =>
      rw [List.mem_singleton.mp ht]
      exact le_refl _
    | cons b rest' =>
      rw [List.getLast_cons (by simp)]
      rcases List.mem_cons.mp ht with rfl | hmem
      · have hmem_last : (b :: rest').getLast (by simp) ∈ b :: rest' :=
          List.getLast_mem _
        have hrel := (List.pairwise_cons.mp hpw).1 _ hmem_last
        exact le_of_lt (dtKey_lt_of_dtLt (hv t (List.mem_cons_self t _))
          (hv _ (List.mem_cons_of_mem t hmem_last)) hrel)
      · exact ih (by simp) (List.pairwise_cons.mp hpw).2
          (fun x hx => hv x (List.mem_cons_of_mem a hx)) t hmem

theorem head_le_of_pairwise {l : List PyDateTime} (hne : l ≠ [])
    (hpw : List.Pairwise dtLt l) (hv : ∀ t ∈ l, ValidDT t) :
    ∀ t ∈ l, dtKey (l.head hne) ≤ dtKey t := by
  intro t ht
  cases l with
  | nil => exact absurd rfl hne
  | cons a rest =>
    rw [List.head_cons]
    rcases List.mem_cons.mp ht with rfl | hmem
    · exact le_refl _
    · exact le_of_lt (dtKey_lt_of_dtLt (hv a (List.mem_cons_self a rest))
        (hv t (List.mem_cons_of_mem a hmem))
        ((List.pairwise_cons.mp hpw).1 t hmem))

/-- **C7** — Starting from an empty store, write one record per valid
time for a fixed domain and product under the default naming template,
with strictly ascending timezone-aware valid times (valid calendar
fields) and each metadata document carrying its `valid_time`.  A range
query bounded by the minimum and maximum valid time then returns exactly
those N records: the result set is the whole collection, sorted
ascending by filename, and that filename order coincides with ascending
`valid_time` order — the rows come back exactly in the order written. -/
theorem C7_sorted_range (name prod : List Char) (times : List PyDateTime)
    (g : PyDateTime → RainGrid) (md : PyDateTime → Dict)
    (hne : times ≠ [])
    (hasc : List.Pairwise dtLt times)
    (hv : ∀ t ∈ times, ValidDT t)
    (htz : ∀ t ∈ times, t.tzAware = true)
    (hmd : ∀ t ∈ times, dictGet (md t) "valid_time" = some (Val.vDT t)) :
    get_rainfields_df
      (times.foldl (fun d t =>
        write_rainfield d (make_nc_name name prod t none none)
          (.good (g t)) (md t)) [])
      (rangeQuery (times.head hne) (times.getLast hne)) =
    .ok ⟨rainRowCols, times.map (fun t =>
      ⟨dictGet (md t) "domain", dictGet (md t) "product", t, rowBase (md t),
        dictGet (md t) "ensemble", decodeGrid (g t), md t⟩)⟩ := by
  have hpwne : List.Pairwise (fun a b : PyDateTime =>
      make_nc_name name prod a none none ≠ make_nc_name name prod b none none)
      times :=
    hasc.imp_of_mem (fun {a b} ha hb h =>
      lexLt_ne (make_nc_name_mono (hv a ha) (hv b hb) h))
  have hdb : times.foldl (fun d t =>
      write_rainfield d (make_nc_name name prod t none none)
        (.good (g t)) (md t)) ([] : RainDB) =
      times.map (fun t =>
        (⟨make_nc_name name prod t none none, .good (g t), md t⟩ :
          FileRec RainGrid)) := by
    have h := foldl_write_eq (fun t => make_nc_name name prod t none none)
      (fun t => Blob.good (g t)) md times [] (by intro t _ r hr; cases hr) hpwne
    simpa using h
  rw [hdb]
  unfold get_rainfields_df
  have hfilter : (times.map (fun t =>
      (⟨make_nc_name name prod t none none, .good (g t), md t⟩ :
        FileRec RainGrid))).filter
      (fun r => rangeQuery (times.head hne) (times.getLast hne) r.metadata) =
      times.map (fun t =>
        (⟨make_nc_name name prod t none none, .good (g t), md t⟩ :
          FileRec RainGrid)) := by
    rw [List.filter_eq_self]
    intro r hr
    rw [List.mem_map] at hr
    obtain ⟨t, ht, rfl⟩ := hr
    show rangeQuery (times.head hne) (times.getLast hne) (md t) = true
    unfold rangeQuery
    rw [hmd t ht]
    have h1 := head_le_of_pairwise hne hasc hv t ht
    have h2 := le_getLast_of_pairwise times hne hasc hv t ht
    simp [h1, h2]
  rw [hfilter]
  have hsorted : List.Sorted recLe (times.map (fun t =>
      (⟨make_nc_name name prod t none none, .good (g t), md t⟩ :
        FileRec RainGrid))) := by
    rw [List.Sorted, List.pairwise_map]
    exact hasc.imp_of_mem (fun {a b} ha hb h =>
      lexLe_of_lexLt (make_nc_name_mono (hv a ha) (hv b hb) h))
  rw [hsorted.insertionSort_eq]
  unfold rainDfAssemble
  have hrows : (times.map (fun t =>
      (⟨make_nc_name name prod t none none, .good (g t), md t⟩ :
        FileRec RainGrid))).filterMap processRainDoc =
      times.map (fun t =>
        (⟨dictGet (md t) "domain", dictGet (md t) "product", t, rowBase (md t),
          dictGet (md t) "ensemble", decodeGrid (g t), md t⟩ : RainRow)) := by
    rw [List.filterMap_map]
    apply filterMap_eq_map_of_some
    intro t ht
    show processRainDoc ⟨make_nc_name name prod t none none,
      .good (g t), md t⟩ = _
    simp [processRainDoc, hmd t ht, tzNorm, htz t ht]
  rw [hrows]
  cases times with
  | nil => exact absurd rfl hne
  | cons t ts =>
    rw [if_neg (by simp), if_neg (by simp)]

/-- Witness applying `C7_sorted_range` to two concrete writes ten
minutes apart. -/
theorem C7_sorted_range_witness :
    get_rainfields_df
      (([⟨2025, 7, 3, 1, 0, 0, true⟩, ⟨2025, 7, 3, 1, 10, 0, true⟩] :
          List PyDateTime).foldl
        (fun d t =>
          write_rainfield d (make_nc_name "akl".data "qpe".data t none none)
            (.good [[1]]) [("valid_time", Val.vDT t)]) [])
      (rangeQuery ⟨2025, 7, 3, 1, 0, 0, true⟩ ⟨2025, 7, 3, 1, 10, 0, true⟩) =
    .ok ⟨rainRowCols,
      ([⟨2025, 7, 3, 1, 0, 0, true⟩, ⟨2025, 7, 3, 1, 10, 0, true⟩] :
          List PyDateTime).map (fun t =>
        ⟨dictGet [("valid_time", Val.vDT t)] "domain",
          dictGet [("valid_time", Val.vDT t)] "product", t,
          rowBase [("valid_time", Val.vDT t)],
          dictGet [("valid_time", Val.vDT t)] "ensemble",
          decodeGrid [[1]], [("valid_time", Val.vDT t)]⟩)⟩ :=
  C7_sorted_range "akl".data "qpe".data
    [⟨2025, 7, 3, 1, 0, 0, true⟩, ⟨2025, 7, 3, 1, 10, 0, true⟩]
    (fun _ => [[1]]) (fun t => [("valid_time", Val.vDT t)])
    (by decide) (by decide) (by decide) (by decide) (fun t _ => rfl)
